import Mathlib

/-!
# Verification of the `instrumented` crate

A shallow embedding of the `instrumented` crate (attribute macro for
Prometheus instrumentation of functions) and proofs about it.

* `src/core/codegen/src/lib.rs` — the source transformer: annotation
  parsing (`Options::from_list`, `NamedOptions`), fallibility detection
  (`is_result_type`, `check_if_return_result`), log-level token generation
  (`get_logger_token`) and the generated instrumented body
  (`generate_function`).
* `src/core/lib/src/lib.rs` — the metrics runtime: the counter / gauge /
  histogram update functions the generated code calls, registry
  initialization from environment values, and the HTTP exporter service.

Machine state (the Prometheus collectors) is modelled as functions from
label tuples to numbers; the generated body is modelled both as a final
state transformer and as the ordered trace of runtime calls it performs.
-/

namespace Instrumented

/-- Label tuple `(name, ctx)`; the leading `"func_call"` value of the
`type` label is the same constant in every runtime call, so it is left
implicit. -/
abbrev FnLabel := String × String

/-- Label tuple `(name, ctx, err)` for the error counter. -/
abbrev ErrLabel := String × String × String

/-- The state of the four metric families of `src/core/lib/src/lib.rs`
(`FUNC_CALLED`, `FUNC_ERRORS`, `FUNC_TIMER`, `FUNC_INFLIGHT`), plus the
list of emitted log records `(level, format)`.  Histogram state is
abstracted to the number of observations received, which is all the
claims speak about. -/
structure Metrics where
  called : FnLabel → Nat
  errors : ErrLabel → Nat
  inflight : FnLabel → Int
  latencyCount : FnLabel → Nat
  logs : List (String × String)

/-- A metrics state with all collectors at zero and no logs. -/
def Metrics.empty : Metrics :=
  { called := fun _ => 0
    errors := fun _ => 0
    inflight := fun _ => 0
    latencyCount := fun _ => 0
    logs := [] }

/-- `inc_called_counter_for` (lib.rs:193): bump `FUNC_CALLED` at
`("func_call", name, ctx)`. -/
def inc_called_counter_for (name ctx : String) (m : Metrics) : Metrics :=
  { m with called := fun l => if l = (name, ctx) then m.called l + 1 else m.called l }

/-- `inc_error_counter_for` (lib.rs:200): bump `FUNC_ERRORS` at
`("func_call", name, ctx, err)`. -/
def inc_error_counter_for (name ctx err : String) (m : Metrics) : Metrics :=
  { m with errors := fun l => if l = (name, ctx, err) then m.errors l + 1 else m.errors l }

/-- `inc_inflight_for` (lib.rs:214): bump `FUNC_INFLIGHT`. -/
def inc_inflight_for (name ctx : String) (m : Metrics) : Metrics :=
  { m with inflight := fun l => if l = (name, ctx) then m.inflight l + 1 else m.inflight l }

/-- `dec_inflight_for` (lib.rs:221): decrement `FUNC_INFLIGHT`. -/
def dec_inflight_for (name ctx : String) (m : Metrics) : Metrics :=
  { m with inflight := fun l => if l = (name, ctx) then m.inflight l - 1 else m.inflight l }

/-- The effect of dropping the `prometheus::HistogramTimer` returned by
`get_timer_for` (lib.rs:207): one observation into `FUNC_TIMER`. -/
def observe_timer_for (name ctx : String) (m : Metrics) : Metrics :=
  { m with latencyCount := fun l => if l = (name, ctx) then m.latencyCount l + 1 else m.latencyCount l }

/-- Appending one log record, the effect of a `log::log!(level, fmt, ..)`
statement generated by `get_ok_err_streams` (codegen lib.rs:43-57). -/
def emit_log (level fmt : String) (m : Metrics) : Metrics :=
  { m with logs := m.logs ++ [(level, fmt)] }

/-- One runtime call performed by a generated instrumented body, in the
order the statements appear in `generate_function`
(codegen lib.rs:203-235). -/
inductive Event where
  | incCalled (name ctx : String)
  | incInflight (name ctx : String)
  | timerStart (name ctx : String)
  | bodyRun
  | logOk (level fmt : String)
  | logErr (level fmt : String)
  | incError (name ctx errText : String)
  | decInflight (name ctx : String)
  | timerObserve (name ctx : String)
deriving DecidableEq, Repr

/-- Effect of each runtime call on the metrics state.  `timerStart`
records nothing (the histogram observation happens when the timer handle
is dropped at scope exit, `timerObserve`); the wrapped body `bodyRun`
touches no metrics. -/
def applyEvent (m : Metrics) : Event → Metrics
  | .incCalled n c => inc_called_counter_for n c m
  | .incInflight n c => inc_inflight_for n c m
  | .timerStart _ _ => m
  | .bodyRun => m
  | .logOk lvl fmt => emit_log lvl fmt m
  | .logErr lvl fmt => emit_log lvl fmt m
  | .incError n c e => inc_error_counter_for n c e m
  | .decInflight n c => dec_inflight_for n c m
  | .timerObserve n c => observe_timer_for n c m

/-- The resolved per-annotation data threaded into `generate_function`:
the success / failure logging expressions (`none` embeds the generated
no-op `()`), the message format and the context label
(struct `FormattedAttributes`, codegen lib.rs:21-25, with the log
expressions kept symbolically as their level token). -/
structure FormattedAttributes where
  okLog : Option String
  errLog : Option String
  fmt : String
  ctx : String
deriving DecidableEq, Repr

/-- Events of the generated `#ok_expr;` statement: one log record when a
success log level is configured, nothing for the generated `()`. -/
def okExprEvents (fa : FormattedAttributes) : List Event :=
  match fa.okLog with
  | some lvl => [.logOk lvl fa.fmt]
  | none => []

/-- Events of the generated `#err_expr;` statement. -/
def errExprEvents (fa : FormattedAttributes) : List Event :=
  match fa.errLog with
  | some lvl => [.logErr lvl fa.fmt]
  | none => []

/-- Trace of runtime calls of the fallible branch of `generate_function`
(codegen lib.rs:204-222): counter, inflight, timer start, the body, then
`.map` (success: ok log, inflight decrement) or `.map_err` (failure:
err log, error counter labelled `format!("\x7b:?\x7d", err)` — embedded by
`dbg` — then inflight decrement), and finally the timer drop at scope
exit. -/
def fallibleTrace (name : String) (fa : FormattedAttributes)
    (dbg : ε → String) (body : Except ε α) : List Event :=
  [.incCalled name fa.ctx, .incInflight name fa.ctx, .timerStart name fa.ctx, .bodyRun]
  ++ (match body with
      | .ok _ => okExprEvents fa ++ [.decInflight name fa.ctx]
      | .error e => errExprEvents fa ++ [.incError name fa.ctx (dbg e), .decInflight name fa.ctx])
  ++ [.timerObserve name fa.ctx]

/-- Trace of runtime calls of the infallible branch of
`generate_function` (codegen lib.rs:224-234): counter, inflight, timer
start, body, ok log, inflight decrement, timer drop at scope exit. -/
def infallibleTrace (name : String) (fa : FormattedAttributes) : List Event :=
  [.incCalled name fa.ctx, .incInflight name fa.ctx, .timerStart name fa.ctx, .bodyRun]
  ++ okExprEvents fa ++ [.decInflight name fa.ctx, .timerObserve name fa.ctx]

/-- Execution of the generated fallible wrapper: the returned value is
the closure's result threaded through the generated
`.map(|result| \x7b ..; result \x7d).map_err(|err| \x7b ..; err \x7d)`,
and the metrics state is the fold of the runtime-call trace. -/
def runFallible (name : String) (fa : FormattedAttributes) (dbg : ε → String)
    (body : Except ε α) (m : Metrics) : Except ε α × Metrics :=
  ((Except.mapError (fun err => err) (Except.map (fun result => result) body)),
   (fallibleTrace name fa dbg body).foldl applyEvent m)

/-- Execution of the generated infallible wrapper: `let result =
(closure)(); ..; result`. -/
def runInfallible (name : String) (fa : FormattedAttributes)
    (body : α) (m : Metrics) : α × Metrics :=
  (body, (infallibleTrace name fa).foldl applyEvent m)

/-! ## Annotation argument parsing (codegen lib.rs:66-130) -/

/-- One annotation argument (`syn::NestedMeta`): a bare identifier
(`Meta::Word`), a `key = "literal"` pair (`Meta::NameValue`, whose
literal is kept as its string), a parenthesised list head
(`Meta::List`), or a bare literal (`NestedMeta::Literal`). -/
inductive NestedMeta where
  | word (ident : String)
  | nameValue (key value : String)
  | metaList (ident : String)
  | lit (value : String)
deriving DecidableEq, Repr

/-- `struct NamedOptions` (codegen lib.rs:66-73): the recognized named
arguments.  `ok` / `err` hold the log-level identifier, `fmt` / `ctx`
the string values. -/
structure NamedOptions where
  ok : Option String
  err : Option String
  fmt : Option String
  ctx : Option String
deriving DecidableEq, Repr

/-- The all-`None` default of `NamedOptions` (`#[derive(Default)]`). -/
def NamedOptions.default : NamedOptions :=
  { ok := none, err := none, fmt := none, ctx := none }

/-- One step of the derived `FromMeta` parser for `NamedOptions`: assign
a `key = value` pair to its field; a key outside `{ok, err, fmt, ctx}`
is an unknown-field error, a repeated key a duplicate-field error. -/
def NamedOptions.setField (acc : NamedOptions) (key value : String) :
    Except String NamedOptions :=
  if key = "ok" then
    match acc.ok with
    | some _ => .error "duplicate field ok"
    | none => .ok { acc with ok := some value }
  else if key = "err" then
    match acc.err with
    | some _ => .error "duplicate field err"
    | none => .ok { acc with err := some value }
  else if key = "fmt" then
    match acc.fmt with
    | some _ => .error "duplicate field fmt"
    | none => .ok { acc with fmt := some value }
  else if key = "ctx" then
    match acc.ctx with
    | some _ => .error "duplicate field ctx"
    | none => .ok { acc with ctx := some value }
  else .error ("unknown field: " ++ key)

/-- The derived `darling::FromMeta` list parser for `NamedOptions`
(external derive; behaviour per the darling contract the source relies
on): `key = value` items are assigned to fields, anything else —
a bare word, a nested list or a bare literal — and any unknown or
duplicate key is an error. -/
def NamedOptions.from_list (acc : NamedOptions) :
    List NestedMeta → Except String NamedOptions
  | [] => .ok acc
  | .word ident :: _ => .error ("unexpected word: " ++ ident)
  | .metaList ident :: _ => .error ("unsupported format: " ++ ident)
  | .lit _ :: _ => .error "unexpected literal"
  | .nameValue key value :: rest =>
    match acc.setField key value with
    | .error e => .error e
    | .ok acc2 => NamedOptions.from_list acc2 rest

/-- `struct Options` (codegen lib.rs:75-79): an optional leading log
level plus the named options. -/
structure Options where
  leading_level : Option String
  named : NamedOptions
deriving DecidableEq, Repr

/-- `Options::ok_log` (codegen lib.rs:82): named `ok=` override, falling
back to the leading level. -/
def Options.ok_log (o : Options) : Option String :=
  o.named.ok <|> o.leading_level

/-- `Options::err_log` (codegen lib.rs:89): named `err=` override,
falling back to the leading level. -/
def Options.err_log (o : Options) : Option String :=
  o.named.err <|> o.leading_level

/-- `Options::fmt` (codegen lib.rs:96). -/
def Options.fmtOpt (o : Options) : Option String := o.named.fmt

/-- `Options::ctx` (codegen lib.rs:100). -/
def Options.ctxOpt (o : Options) : Option String := o.named.ctx

/-- `Options::from_list` (codegen lib.rs:106-129): an empty list is a
too-few-items error; a leading bare identifier becomes `leading_level`
and the remaining items are parsed as named options, otherwise all items
are. -/
def Options.from_list (items : List NestedMeta) : Except String Options :=
  if items.isEmpty then .error "too few items: expected at least 1"
  else
    let leading_level : Option String :=
      match items.head? with
      | some (.word ident) => some ident
      | _ => none
    match leading_level with
    | some _ =>
      (NamedOptions.from_list NamedOptions.default items.tail).map
        (fun n => { leading_level := leading_level, named := n })
    | none =>
      (NamedOptions.from_list NamedOptions.default items).map
        (fun n => { leading_level := leading_level, named := n })

/-- `get_logger_token` (codegen lib.rs:154-161): lowercase the level
identifier, then capitalize its first character, giving the identifier
of the emitted `log::Level::_` token.  (The source `unwrap`s the first
character; identifiers are never empty.) -/
def get_logger_token (att : String) : String :=
  match att.data.map Char.toLower with
  | [] => ""
  | c :: cs => String.mk (c.toUpper :: cs)

/-- `FormattedAttributes::get_ok_err_streams` (codegen lib.rs:37-63):
resolve the effective log expressions, format and context. -/
def get_ok_err_streams (att : Options) (fmtDefault ctxDefault : String) :
    FormattedAttributes :=
  { okLog := (att.ok_log).map get_logger_token
    errLog := (att.err_log).map get_logger_token
    fmt := (att.fmtOpt).getD fmtDefault
    ctx := (att.ctxOpt).getD ctxDefault }

/-- `FormattedAttributes::parse_attributes` (codegen lib.rs:28-35). -/
def parse_attributes (attr : List NestedMeta) (fmtDefault ctxDefault : String) :
    Except String FormattedAttributes :=
  (Options.from_list attr).map (fun opts => get_ok_err_streams opts fmtDefault ctxDefault)

/-! ## Fallibility detection (codegen lib.rs:135-152) -/

/-- A declared Rust type as far as the transformer inspects it: a path
type with the identifiers of its segments (`syn::TypePath`, generic
arguments ignored as the source compares only `segment.ident`), or any
other type shape. -/
inductive RustType where
  | path (segments : List String)
  | other
deriving DecidableEq, Repr

/-- `syn::ReturnType`: no declared return type, or a declared type. -/
inductive RetType where
  | default
  | ty (t : RustType)
deriving DecidableEq, Repr

/-- `is_result_type` (codegen lib.rs:135-141): the last path segment is
named `Result`. -/
def is_result_type (segments : List String) : Bool :=
  match segments.getLast? with
  | some segment => segment == "Result"
  | none => false

/-- `check_if_return_result` (codegen lib.rs:143-152): a declared path
return type is checked with `is_result_type`; a missing return type or
a non-path type is not a result. -/
def check_if_return_result (output : RetType) : Bool :=
  match output with
  | .ty (.path p) => is_result_type p
  | .ty .other => false
  | .default => false

/-- The data `instrument` (codegen lib.rs:240-269) feeds into
`generate_function` when parsing succeeds: the fallibility flag, the
function name, and the resolved attributes. -/
structure GeneratedFn where
  isResult : Bool
  fnName : String
  attrs : FormattedAttributes
deriving DecidableEq, Repr

/-- The `instrument` entry point (codegen lib.rs:240-269): parse the
annotation arguments with the default format `"<name>() => \x7b:?\x7d"`
and default context `"default"`; on failure emit the error (no function
is generated), on success generate the instrumented function. -/
def instrument (attr : List NestedMeta) (fnName : String) (output : RetType) :
    Except String GeneratedFn :=
  match parse_attributes attr (fnName ++ "() => \x7b:?\x7d") "default" with
  | .error e => .error e
  | .ok fa => .ok { isResult := check_if_return_result output, fnName := fnName, attrs := fa }

/-! ## Registry configuration (lib.rs:113-141) -/

/-- Rust `str::split(sep)` on a character sequence: `""` yields `[""]`,
and separators delimit possibly empty pieces. -/
def splitChar (sep : Char) : List Char → List (List Char)
  | [] => [[]]
  | c :: cs =>
    match splitChar sep cs with
    | [] => [[c]]
    | piece :: rest =>
      if c = sep then [] :: piece :: rest
      else (c :: piece) :: rest

/-- Rust `str::splitn(2, sep)`: at most two pieces, split at the first
separator; a sequence without the separator stays whole. -/
def splitn2 (sep : Char) (s : List Char) : List (List Char) :=
  if s.contains sep then
    [s.takeWhile (fun c => c != sep), (s.dropWhile (fun c => c != sep)).drop 1]
  else [s]

/-- `HashMap::insert` modelled on an association list: replace any
binding of the key, add the new binding. -/
def hmInsert (m : List (List Char × List Char)) (k v : List Char) :
    List (List Char × List Char) :=
  (m.filter (fun p => p.1 != k)) ++ [(k, v)]

/-- One entry of the `METRICS_LABELS` fold (lib.rs:124-127): split at
the first `=`; exactly two pieces insert a binding, otherwise the entry
is ignored. -/
def labelStep (m : List (List Char × List Char)) (s : List Char) :
    List (List Char × List Char) :=
  match splitn2 '=' s with
  | [k, v] => hmInsert m k v
  | _ => m

/-- Parsing of the `METRICS_LABELS` value (lib.rs:121-131): split at
commas and fold the entries into the label map. -/
def parseLabels (value : List Char) : List (List Char × List Char) :=
  (splitChar ',' value).foldl labelStep []

/-- The configuration `DEFAULT_REGISTRY` is built with
(`prometheus::Registry::new_custom(prefix, labels)`, lib.rs:113-141). -/
structure RegistryConfig where
  prefixValue : Option String
  labels : Option (List (List Char × List Char))
deriving DecidableEq, Repr

/-- Registry initialization (lib.rs:113-141): the `METRICS_PREFIX`
environment value (absent → no prefix) and the parsed `METRICS_LABELS`
environment value (absent → no default labels). -/
def registryConfigOf (metricsPrefixEnv metricsLabelsEnv : Option String) :
    RegistryConfig :=
  { prefixValue := metricsPrefixEnv
    labels := metricsLabelsEnv.map (fun v => parseLabels v.data) }

/-! ## HTTP exporter service (lib.rs:229-270) -/

/-- An HTTP request as far as the service closure inspects it. -/
structure HttpRequest where
  method : String
  path : String
deriving DecidableEq, Repr

/-- The response the service closure builds. -/
structure HttpResponse where
  status : Nat
  contentType : Option String
  body : String
deriving DecidableEq, Repr

/-- The service closure passed to `service_fn_ok` in `init`
(lib.rs:236-255).  `encodedMetrics` stands for the text encoding of
`DEFAULT_REGISTRY.gather()` and `fmtType` for
`encoder.format_type()` (both produced by the external
`prometheus::TextEncoder`).  The request path alone selects the route. -/
def metricsService (encodedMetrics fmtType : String) (req : HttpRequest) :
    HttpResponse :=
  if req.path = "/metrics" then
    { status := 200, contentType := some fmtType, body := encodedMetrics }
  else
    { status := 404, contentType := none, body := "Not found." }

/-! ## Auxiliary notions used by the statements -/

/-- A Rust error value as the generated code can render it:
`debugRepr` is its `format!("\x7b:?\x7d", e)` text (the `Debug` form the
generated `map_err` arm passes to `inc_error_counter_for`), `displayRepr`
its `format!("\x7b\x7d", e)` text (the `Display` form, which the
generated code does not use). -/
structure RustError where
  debugRepr : String
  displayRepr : String
deriving DecidableEq, Repr

/-- The leading bare identifier of an annotation argument list, when its
first item is one (`Meta::Word`), mirroring codegen lib.rs:113-117. -/
def leadingOf (items : List NestedMeta) : Option String :=
  match items.head? with
  | some (.word ident) => some ident
  | _ => none

/-- The set of named-argument keys `NamedOptions` recognizes. -/
def recognizedKeys : List String := ["ok", "err", "fmt", "ctx"]

/-- The invariants one invocation of an instrumented function must keep,
over its runtime-call trace `t` and the metrics states before (`m0`) and
after (`mFinal`) the call, for the function/context label `(name, ctx)`:
the call counter bump, the inflight bump and the timer start all precede
the body; the body runs once; inflight is decremented exactly once,
never drops below its pre-call value at any point of the trace and
returns to it; and the latency histogram receives exactly one
observation. -/
def InvocationInvariants (t : List Event) (name ctx : String)
    (m0 mFinal : Metrics) : Prop :=
  Event.incCalled name ctx ∈ t.takeWhile (fun e => e != Event.bodyRun) ∧
  Event.incInflight name ctx ∈ t.takeWhile (fun e => e != Event.bodyRun) ∧
  Event.timerStart name ctx ∈ t.takeWhile (fun e => e != Event.bodyRun) ∧
  t.count Event.bodyRun = 1 ∧
  t.count (Event.decInflight name ctx) = 1 ∧
  mFinal.inflight (name, ctx) = m0.inflight (name, ctx) ∧
  (∀ p, p <+: t →
    m0.inflight (name, ctx) ≤ (p.foldl applyEvent m0).inflight (name, ctx)) ∧
  mFinal.latencyCount (name, ctx) = m0.latencyCount (name, ctx) + 1

/-- Claim C3 exactly as stated: a `GET` request for `/metrics` is the
200 route and *any* other request — including a non-`GET` request for
`/metrics` — is the 404 route. -/
def c3ClaimAsStated : Prop :=
  ∀ (encodedMetrics fmtType : String) (req : HttpRequest),
    (req.method = "GET" ∧ req.path = "/metrics" →
      metricsService encodedMetrics fmtType req =
        { status := 200, contentType := some fmtType, body := encodedMetrics }) ∧
    (¬(req.method = "GET" ∧ req.path = "/metrics") →
      metricsService encodedMetrics fmtType req =
        { status := 404, contentType := none, body := "Not found." })

/-- A sample resolved annotation (levels `INFO`, default format and
context), used to instantiate universally quantified statements. -/
def sampleAttrs : FormattedAttributes :=
  { okLog := some "Info", errLog := some "Info"
    fmt := "f() => \x7b:?\x7d", ctx := "default" }

/-! ## Theorems -/

/-- C4: the transformer classifies a function as fallible exactly when
its declared return type is a path type whose final segment is the
identifier `Result`, whatever module path precedes it; a missing or
non-path return type is infallible. -/
theorem c4_result_detection :
    ∀ output : RetType,
      check_if_return_result output = true ↔
        ∃ segments, output = RetType.ty (RustType.path segments) ∧
          segments.getLast? = some "Result" := by
  intro output
  cases output with
  | default => simp [check_if_return_result]
  | ty t =>
    cases t with
    | other => simp [check_if_return_result]
    | path segments =>
      simp only [check_if_return_result, is_result_type]
      cases hl : segments.getLast? with
      | none => simp [hl]
      | some seg =>
        simp only [hl, beq_iff_eq]
        constructor
        · rintro rfl
          exact ⟨segments, rfl, hl⟩
        · rintro ⟨s, hs, hlast⟩
          cases hs
          rw [hl] at hlast
          exact Option.some.inj hlast

/-- C10: the generated log-level token is computed case-insensitively —
the identifier is lowercased, then its first character capitalized — so
`INFO`, `info` and `iNfO` all yield the `Info` level identifier. -/
theorem c10_logger_token_case_insensitive :
    (∀ s t : String, s.data.map Char.toLower = t.data.map Char.toLower →
      get_logger_token s = get_logger_token t) ∧
    get_logger_token "INFO" = "Info" ∧
    get_logger_token "info" = "Info" ∧
    get_logger_token "iNfO" = "Info" := by
  refine ⟨fun s t h => ?_, by decide, by decide, by decide⟩
  unfold get_logger_token
  rw [h]

/-- Witness for C10 at the concrete identifiers `INFO` and `iNfO`. -/
theorem c10_witness : get_logger_token "INFO" = get_logger_token "iNfO" :=
  c10_logger_token_case_insensitive.1 "INFO" "iNfO" (by decide)

/-- C3 as stated fails: the service closure never inspects the request
method, so a `POST` request for `/metrics` is answered with status 200,
not 404. -/
theorem c3_counterexample_post_metrics : ¬ c3ClaimAsStated := fun h =>
  absurd ((h "enc" "text" { method := "POST", path := "/metrics" }).2 (by decide))
    (by decide)

/-- C3 (amended): routing depends on the path only — any request whose
path is `/metrics`, regardless of method, is answered with status 200,
the encoder's declared content type and the encoded metric families; a
request with any other path is answered with status 404 and the
plain-text body `"Not found."`. -/
theorem c3_amended_path_routing :
    ∀ (encodedMetrics fmtType : String) (req : HttpRequest),
      (req.path = "/metrics" →
        metricsService encodedMetrics fmtType req =
          { status := 200, contentType := some fmtType, body := encodedMetrics }) ∧
      (req.path ≠ "/metrics" →
        metricsService encodedMetrics fmtType req =
          { status := 404, contentType := none, body := "Not found." }) := by
  intro encodedMetrics fmtType req
  constructor <;> intro h <;> simp [metricsService, h]

/-- Witness for the amended C3 at two concrete requests. -/
theorem c3_amended_witness :
    metricsService "enc" "text" { method := "GET", path := "/metrics" } =
      { status := 200, contentType := some "text", body := "enc" } ∧
    metricsService "enc" "text" { method := "GET", path := "/nope" } =
      { status := 404, contentType := none, body := "Not found." } :=
  ⟨(c3_amended_path_routing "enc" "text" _).1 rfl,
   (c3_amended_path_routing "enc" "text" _).2 (by decide)⟩

/-- An entry without `=` splits into a single piece, so the label fold
ignores it. -/
theorem labelStep_of_not_contains (m : List (List Char × List Char))
    (s : List Char) (h : s.contains '=' = false) : labelStep m s = m := by
  unfold labelStep splitn2
  rw [h]
  simp

/-- An entry with `=` splits into two pieces, so the label fold inserts
the binding of its key. -/
theorem labelStep_of_contains (m : List (List Char × List Char))
    (s : List Char) (h : s.contains '=' = true) :
    labelStep m s =
      hmInsert m (s.takeWhile (fun c => c != '='))
        ((s.dropWhile (fun c => c != '=')).drop 1) := by
  unfold labelStep splitn2
  rw [h]
  simp

/-- The inserted key is a key of the map after `hmInsert`. -/
theorem mem_keys_hmInsert (m : List (List Char × List Char))
    (k v : List Char) : k ∈ (hmInsert m k v).map Prod.fst := by
  simp [hmInsert]

/-- `hmInsert` keeps every existing key. -/
theorem keys_mono_hmInsert (m : List (List Char × List Char))
    (k v q : List Char) (h : q ∈ m.map Prod.fst) :
    q ∈ (hmInsert m k v).map Prod.fst := by
  rcases List.mem_map.mp h with ⟨p, hp, hq⟩
  by_cases hqk : q = k
  · simp [hmInsert, hqk]
  · refine List.mem_map.mpr ?_
    exact ⟨p, by
      simp only [hmInsert, List.mem_append, List.mem_filter]
      exact Or.inl ⟨hp, by simp [hq, bne_iff_ne, hqk]⟩, hq⟩

/-- One label-fold step keeps every existing key. -/
theorem keys_mono_labelStep (m : List (List Char × List Char))
    (s q : List Char) (h : q ∈ m.map Prod.fst) :
    q ∈ (labelStep m s).map Prod.fst := by
  cases hc : s.contains '=' with
  | false => rw [labelStep_of_not_contains m s hc]; exact h
  | true => rw [labelStep_of_contains m s hc]; exact keys_mono_hmInsert _ _ _ _ h

/-- The whole label fold keeps every existing key. -/
theorem keys_mono_foldl (l : List (List Char)) :
    ∀ (acc : List (List Char × List Char)) (q : List Char),
      q ∈ acc.map Prod.fst → q ∈ (l.foldl labelStep acc).map Prod.fst := by
  induction l with
  | nil => intro acc q h; exact h
  | cons a l ih =>
    intro acc q h
    exact ih (labelStep acc a) q (keys_mono_labelStep acc a q h)

/-- Every well-formed entry of the list contributes its key to the
folded label map. -/
theorem key_mem_foldl_of_mem (l : List (List Char)) (entry : List Char)
    (h : entry ∈ l) (hc : entry.contains '=' = true) :
    ∀ acc, entry.takeWhile (fun c => c != '=') ∈
      (l.foldl labelStep acc).map Prod.fst := by
  induction l with
  | nil => cases h
  | cons a l ih =>
    intro acc
    rcases List.mem_cons.mp h with rfl | hmem
    · simp only [List.foldl_cons]
      refine keys_mono_foldl l _ _ ?_
      rw [labelStep_of_contains acc entry hc]
      exact mem_keys_hmInsert _ _ _
    · simp only [List.foldl_cons]
      exact ih hmem _

/-- Dropping the malformed entries does not change the label fold. -/
theorem foldl_filter_contains (l : List (List Char)) :
    ∀ acc, l.foldl labelStep acc =
      (l.filter (fun e => e.contains '=')).foldl labelStep acc := by
  induction l with
  | nil => intro acc; rfl
  | cons a l ih =>
    intro acc
    cases hc : a.contains '=' with
    | false =>
      simp only [List.foldl_cons, List.filter_cons, hc, if_neg Bool.false_ne_true,
        cond_false]
      rw [labelStep_of_not_contains acc a hc]
      exact ih acc
    | true =>
      simp only [List.foldl_cons, List.filter_cons, hc, cond_true]
      exact ih (labelStep acc a)

/-- C8: at registry initialization the default-label environment value
is split at commas; entries without an `=` are silently dropped (the
fold over only the well-formed entries gives the same map), the key of
every well-formed entry becomes a default-label key, and both the
prefix and the label configuration are optional. -/
theorem c8_label_env_parsing :
    (∀ value : List Char, parseLabels value =
      ((splitChar ',' value).filter (fun e => e.contains '=')).foldl labelStep []) ∧
    (∀ (value entry : List Char), entry ∈ splitChar ',' value →
      entry.contains '=' = true →
      entry.takeWhile (fun c => c != '=') ∈ (parseLabels value).map Prod.fst) ∧
    registryConfigOf none none = { prefixValue := none, labels := none } ∧
    (∀ (p l : String), registryConfigOf (some p) (some l) =
      { prefixValue := some p, labels := some (parseLabels l.data) }) := by
  refine ⟨fun value => ?_, fun value entry hmem hc => ?_, rfl, fun p l => rfl⟩
  · exact foldl_filter_contains (splitChar ',' value) []
  · exact key_mem_foldl_of_mem (splitChar ',' value) entry hmem hc []

/-- Witness for C8 on the concrete value `app=x,bad,env=prod`: the
well-formed entry `env=prod` yields the key `env`. -/
theorem c8_witness :
    "env".data ∈ (parseLabels "app=x,bad,env=prod".data).map Prod.fst :=
  c8_label_env_parsing.2.1 "app=x,bad,env=prod".data "env=prod".data
    (by decide) (by decide)

/-- A named-option list containing an unrecognized key never parses. -/
theorem named_from_list_error_of_unknown (key value : String)
    (hk : key ∉ recognizedKeys) :
    ∀ (items : List NestedMeta) (acc : NamedOptions),
      NestedMeta.nameValue key value ∈ items →
      ∃ e, NamedOptions.from_list acc items = .error e := by
  simp only [recognizedKeys, List.mem_cons, List.not_mem_nil, or_false, not_or] at hk
  intro items
  induction items with
  | nil => intro acc h; cases h
  | cons a rest ih =>
    intro acc h
    cases a with
    | word i => exact ⟨_, rfl⟩
    | metaList i => exact ⟨_, rfl⟩
    | lit v2 => exact ⟨_, rfl⟩
    | nameValue k2 v2 =>
      rcases List.mem_cons.mp h with heq | hmem
      · cases heq
        exact ⟨_, by
          simp only [NamedOptions.from_list, NamedOptions.setField,
            if_neg hk.1, if_neg hk.2.1, if_neg hk.2.2.1, if_neg hk.2.2.2]
          rfl⟩
      · cases hs : acc.setField k2 v2 with
        | error e => exact ⟨e, by simp [NamedOptions.from_list, hs]⟩
        | ok acc2 =>
          rcases ih acc2 hmem with ⟨e, he⟩
          exact ⟨e, by simp [NamedOptions.from_list, hs, he]⟩

/-- An annotation argument list containing an unrecognized named key
never parses. -/
theorem options_from_list_error_of_unknown (items : List NestedMeta)
    (key value : String) (hk : key ∉ recognizedKeys)
    (hm : NestedMeta.nameValue key value ∈ items) :
    ∃ e, Options.from_list items = .error e := by
  cases items with
  | nil => cases hm
  | cons first rest =>
    cases first with
    | word i =>
      have hmem : NestedMeta.nameValue key value ∈ rest := by
        rcases List.mem_cons.mp hm with heq | hmem
        · cases heq
        · exact hmem
      rcases named_from_list_error_of_unknown key value hk rest
        NamedOptions.default hmem with ⟨e, he⟩
      exact ⟨e, by simp [Options.from_list, he, Except.map]⟩
    | nameValue k2 v2 =>
      rcases named_from_list_error_of_unknown key value hk
        (NestedMeta.nameValue k2 v2 :: rest) NamedOptions.default hm with ⟨e, he⟩
      exact ⟨e, by simp [Options.from_list, he, Except.map]⟩
    | metaList i =>
      rcases named_from_list_error_of_unknown key value hk
        (NestedMeta.metaList i :: rest) NamedOptions.default hm with ⟨e, he⟩
      exact ⟨e, by simp [Options.from_list, he, Except.map]⟩
    | lit v2 =>
      rcases named_from_list_error_of_unknown key value hk
        (NestedMeta.lit v2 :: rest) NamedOptions.default hm with ⟨e, he⟩
      exact ⟨e, by simp [Options.from_list, he, Except.map]⟩

/-- C6: an empty annotation argument list, or one containing a named
key outside `{ok, err, fmt, ctx}`, makes the macro report a build-time
error: `instrument` returns the error and emits no instrumented
function. -/
theorem c6_rejects_empty_and_unknown :
    (∀ (fnName : String) (output : RetType),
      ∃ e, instrument [] fnName output = .error e) ∧
    (∀ (items : List NestedMeta) (key value fnName : String) (output : RetType),
      key ∉ recognizedKeys → NestedMeta.nameValue key value ∈ items →
      ∃ e, instrument items fnName output = .error e) := by
  constructor
  · intro fnName output
    exact ⟨"too few items: expected at least 1", rfl⟩
  · intro items key value fnName output hk hm
    rcases options_from_list_error_of_unknown items key value hk hm with ⟨e, he⟩
    exact ⟨e, by simp [instrument, parse_attributes, he, Except.map]⟩

/-- Witness for C6: the empty list and a list with the unknown key
`foo` are both rejected for a concrete function. -/
theorem c6_witness :
    (∃ e, instrument [] "f" RetType.default = Except.error e) ∧
    (∃ e, instrument [NestedMeta.nameValue "foo" "bar"] "f" RetType.default =
      Except.error e) :=
  ⟨c6_rejects_empty_and_unknown.1 "f" RetType.default,
   c6_rejects_empty_and_unknown.2 [NestedMeta.nameValue "foo" "bar"]
     "foo" "bar" "f" RetType.default (by decide) (by decide)⟩

/-- C7: on a successful parse the leading level is the first argument
exactly when that argument is a bare identifier (never when it is a
`name = value` pair), and the effective success / failure levels are
the named `ok=` / `err=` values, falling back to the leading level. -/
theorem c7_level_resolution :
    ∀ (items : List NestedMeta) (opts : Options),
      Options.from_list items = .ok opts →
      opts.leading_level = leadingOf items ∧
      opts.ok_log = (opts.named.ok <|> leadingOf items) ∧
      opts.err_log = (opts.named.err <|> leadingOf items) ∧
      (∀ key value rest, items = NestedMeta.nameValue key value :: rest →
        opts.leading_level = none) := by
  intro items opts h
  have hll : opts.leading_level = leadingOf items := by
    cases items with
    | nil => simp [Options.from_list] at h
    | cons first rest =>
      cases first with
      | word i =>
        cases hn : NamedOptions.from_list NamedOptions.default rest with
        | error e => simp [Options.from_list, hn, Except.map] at h
        | ok n =>
          simp [Options.from_list, hn, Except.map] at h
          subst h
          rfl
      | nameValue k2 v2 =>
        cases hn : NamedOptions.from_list NamedOptions.default
            (NestedMeta.nameValue k2 v2 :: rest) with
        | error e => simp [Options.from_list, hn, Except.map] at h
        | ok n =>
          simp [Options.from_list, hn, Except.map] at h
          subst h
          rfl
      | metaList i =>
        cases hn : NamedOptions.from_list NamedOptions.default
            (NestedMeta.metaList i :: rest) with
        | error e => simp [Options.from_list, hn, Except.map] at h
        | ok n =>
          simp [Options.from_list, hn, Except.map] at h
          subst h
          rfl
      | lit v2 =>
        cases hn : NamedOptions.from_list NamedOptions.default
            (NestedMeta.lit v2 :: rest) with
        | error e => simp [Options.from_list, hn, Except.map] at h
        | ok n =>
          simp [Options.from_list, hn, Except.map] at h
          subst h
          rfl
  refine ⟨hll, ?_, ?_, ?_⟩
  · rw [Options.ok_log, hll]
  · rw [Options.err_log, hll]
  · intro key value rest hitems
    rw [hll, hitems]
    rfl

/-- Witness for C7 on `#[instrument(INFO, ctx = "special")]`. -/
theorem c7_witness :
    ({ leading_level := some "INFO",
       named := { ok := none, err := none, fmt := none, ctx := some "special" } } :
        Options).ok_log =
      (none <|> leadingOf [NestedMeta.word "INFO",
        NestedMeta.nameValue "ctx" "special"]) :=
  (c7_level_resolution
    [NestedMeta.word "INFO", NestedMeta.nameValue "ctx" "special"]
    { leading_level := some "INFO",
      named := { ok := none, err := none, fmt := none, ctx := some "special" } }
    rfl).2.1

/-- Effect of a single runtime call on the inflight gauge at one label. -/
theorem applyEvent_inflight (m : Metrics) (e : Event) (n c : String) :
    (applyEvent m e).inflight (n, c) =
      m.inflight (n, c) + (if e = Event.incInflight n c then 1 else 0)
        - (if e = Event.decInflight n c then 1 else 0) := by
  cases e <;>
    simp [applyEvent, inc_called_counter_for, inc_inflight_for, dec_inflight_for,
      inc_error_counter_for, observe_timer_for, emit_log, Prod.ext_iff] <;>
    split_ifs <;> simp_all <;> omega

/-- Effect of a single runtime call on the call counter at one label. -/
theorem applyEvent_called (m : Metrics) (e : Event) (n c : String) :
    (applyEvent m e).called (n, c) =
      m.called (n, c) + (if e = Event.incCalled n c then 1 else 0) := by
  cases e <;>
    simp [applyEvent, inc_called_counter_for, inc_inflight_for, dec_inflight_for,
      inc_error_counter_for, observe_timer_for, emit_log, Prod.ext_iff] <;>
    split_ifs <;> simp_all <;> omega

/-- Effect of a single runtime call on the latency observation count at
one label. -/
theorem applyEvent_latency (m : Metrics) (e : Event) (n c : String) :
    (applyEvent m e).latencyCount (n, c) =
      m.latencyCount (n, c) + (if e = Event.timerObserve n c then 1 else 0) := by
  cases e <;>
    simp [applyEvent, inc_called_counter_for, inc_inflight_for, dec_inflight_for,
      inc_error_counter_for, observe_timer_for, emit_log, Prod.ext_iff] <;>
    split_ifs <;> simp_all <;> omega

/-- The inflight gauge after a trace is its start value plus the
increments minus the decrements of the trace. -/
theorem foldl_inflight (p : List Event) (n c : String) :
    ∀ m : Metrics, ((p.foldl applyEvent m).inflight (n, c) : Int) =
      m.inflight (n, c) + p.count (Event.incInflight n c)
        - p.count (Event.decInflight n c) := by
  induction p with
  | nil => intro m; simp
  | cons a p ih =>
    intro m
    rw [List.foldl_cons, ih, applyEvent_inflight]
    rw [List.count_cons, List.count_cons]
    simp only [beq_iff_eq]
    split_ifs <;> simp_all <;> push_cast <;> omega

/-- The call counter after a trace is its start value plus the number of
call-counter increments in the trace. -/
theorem foldl_called (p : List Event) (n c : String) :
    ∀ m : Metrics, (p.foldl applyEvent m).called (n, c) =
      m.called (n, c) + p.count (Event.incCalled n c) := by
  induction p with
  | nil => intro m; simp
  | cons a p ih =>
    intro m
    rw [List.foldl_cons, ih, applyEvent_called, List.count_cons]
    by_cases ha : a = Event.incCalled n c
    · subst ha; simp; omega
    · have ha2 : ¬(Event.incCalled n c = a) := fun h => ha h.symm
      simp [beq_iff_eq, ha, ha2]

/-- The latency observation count after a trace is its start value plus
the number of timer-drop observations in the trace. -/
theorem foldl_latency (p : List Event) (n c : String) :
    ∀ m : Metrics, (p.foldl applyEvent m).latencyCount (n, c) =
      m.latencyCount (n, c) + p.count (Event.timerObserve n c) := by
  induction p with
  | nil => intro m; simp
  | cons a p ih =>
    intro m
    rw [List.foldl_cons, ih, applyEvent_latency, List.count_cons]
    by_cases ha : a = Event.timerObserve n c
    · subst ha; simp; omega
    · have ha2 : ¬(Event.timerObserve n c = a) := fun h => ha h.symm
      simp [beq_iff_eq, ha, ha2]

/-- In a list whose first element differs from `y`, whose second element
is `x ≠ y`, and whose remainder holds at most one `y`, every prefix has
at least as many `x`s as `y`s. -/
theorem count_take_le_count_take {α : Type} [DecidableEq α] (a x y : α) (l : List α)
    (hcount : l.count y ≤ 1) (ha : a ≠ y) (hx : x ≠ y) :
    ∀ k : Nat, ((a :: x :: l).take k).count y ≤ ((a :: x :: l).take k).count x := by
  intro k
  match k with
  | 0 => simp
  | 1 =>
    have h2 : ¬(y = a) := fun h => ha h.symm
    simp [List.count_cons, beq_iff_eq, ha, h2]
  | Nat.succ (Nat.succ k) =>
    simp only [List.take_succ_cons, List.count_cons, beq_iff_eq]
    have h1 : (l.take k).count y ≤ l.count y := (List.take_sublist k l).count_le y
    have h2 : ¬(y = a) := fun h => ha h.symm
    have h3 : ¬(y = x) := fun h => hx h.symm
    simp [ha, hx, h2, h3]
    omega

/-- Every generated trace has the shape: the three metric-entry calls
and the body run, a middle section, and the timer drop.  Whenever the
middle section decrements inflight exactly once and contains no inflight
increment, no body run and no timer observation, the invocation
invariants hold. -/
theorem invariants_of_mid (name ctx : String) (mid : List Event) (m0 : Metrics)
    (hdec : mid.count (Event.decInflight name ctx) = 1)
    (hinc : mid.count (Event.incInflight name ctx) = 0)
    (hbody : mid.count Event.bodyRun = 0)
    (hobs : mid.count (Event.timerObserve name ctx) = 0) :
    InvocationInvariants
      ([Event.incCalled name ctx, Event.incInflight name ctx,
        Event.timerStart name ctx, Event.bodyRun] ++ mid ++ [Event.timerObserve name ctx])
      name ctx m0
      (([Event.incCalled name ctx, Event.incInflight name ctx,
        Event.timerStart name ctx, Event.bodyRun] ++ mid ++
          [Event.timerObserve name ctx]).foldl applyEvent m0) := by
  have htw : ([Event.incCalled name ctx, Event.incInflight name ctx,
      Event.timerStart name ctx, Event.bodyRun] ++ mid ++
        [Event.timerObserve name ctx]).takeWhile (fun e => e != Event.bodyRun) =
      [Event.incCalled name ctx, Event.incInflight name ctx,
        Event.timerStart name ctx] := rfl
  have hcntBody : ([Event.incCalled name ctx, Event.incInflight name ctx,
      Event.timerStart name ctx, Event.bodyRun] ++ mid ++
        [Event.timerObserve name ctx]).count Event.bodyRun = 1 := by
    simp [List.count_append, List.count_cons, beq_iff_eq, hbody]
  have hcntDec : ([Event.incCalled name ctx, Event.incInflight name ctx,
      Event.timerStart name ctx, Event.bodyRun] ++ mid ++
        [Event.timerObserve name ctx]).count (Event.decInflight name ctx) = 1 := by
    simp [List.count_append, List.count_cons, beq_iff_eq, hdec]
  have hcntInc : ([Event.incCalled name ctx, Event.incInflight name ctx,
      Event.timerStart name ctx, Event.bodyRun] ++ mid ++
        [Event.timerObserve name ctx]).count (Event.incInflight name ctx) = 1 := by
    simp [List.count_append, List.count_cons, beq_iff_eq, hinc]
  have hcntObs : ([Event.incCalled name ctx, Event.incInflight name ctx,
      Event.timerStart name ctx, Event.bodyRun] ++ mid ++
        [Event.timerObserve name ctx]).count (Event.timerObserve name ctx) = 1 := by
    simp [List.count_append, List.count_cons, beq_iff_eq, hobs]
  refine ⟨?_, ?_, ?_, hcntBody, hcntDec, ?_, ?_, ?_⟩
  · rw [htw]; simp
  · rw [htw]; simp
  · rw [htw]; simp
  · rw [foldl_inflight, hcntInc, hcntDec]
    omega
  · intro p hp
    have hpt : p = ([Event.incCalled name ctx, Event.incInflight name ctx,
        Event.timerStart name ctx, Event.bodyRun] ++ mid ++
          [Event.timerObserve name ctx]).take p.length :=
      List.prefix_iff_eq_take.mp hp
    rw [hpt, foldl_inflight]
    have hlcount : (Event.timerStart name ctx :: Event.bodyRun :: (mid ++
        [Event.timerObserve name ctx])).count (Event.decInflight name ctx) ≤ 1 := by
      simp [List.count_append, List.count_cons, beq_iff_eq, hdec]
    have hkey := count_take_le_count_take (Event.incCalled name ctx)
      (Event.incInflight name ctx) (Event.decInflight name ctx)
      (Event.timerStart name ctx :: Event.bodyRun :: (mid ++
        [Event.timerObserve name ctx])) hlcount (by simp) (by simp) p.length
    have hshape : ([Event.incCalled name ctx, Event.incInflight name ctx,
        Event.timerStart name ctx, Event.bodyRun] ++ mid ++
          [Event.timerObserve name ctx]) =
        Event.incCalled name ctx :: Event.incInflight name ctx ::
          (Event.timerStart name ctx :: Event.bodyRun :: (mid ++
            [Event.timerObserve name ctx])) := by simp
    rw [hshape]
    omega
  · rw [foldl_latency, hcntObs]

/-- C1: the instrumented fallible wrapper returns exactly the value the
original body produced — `Ok` values unchanged, failures propagated
unaltered — and on failure the error is counted (under its textual form)
and, when a failure log level is configured, logged. -/
theorem c1_failure_propagated_unchanged {ε α : Type} (name : String)
    (fa : FormattedAttributes) (dbg : ε → String)
    (body : Except ε α) (m : Metrics) :
    (runFallible name fa dbg body m).1 = body ∧
    (∀ e, body = Except.error e →
      ((runFallible name fa dbg body m).2).errors (name, fa.ctx, dbg e) =
        m.errors (name, fa.ctx, dbg e) + 1 ∧
      (∀ lvl, fa.errLog = some lvl →
        (lvl, fa.fmt) ∈ ((runFallible name fa dbg body m).2).logs)) := by
  constructor
  · cases body <;> rfl
  · rintro e rfl
    constructor
    · cases hErr : fa.errLog <;>
        simp [runFallible, fallibleTrace, errExprEvents, hErr, applyEvent,
          inc_called_counter_for, inc_inflight_for, dec_inflight_for,
          inc_error_counter_for, observe_timer_for, emit_log]
    · intro lvl hErr
      simp [runFallible, fallibleTrace, errExprEvents, hErr, applyEvent,
        inc_called_counter_for, inc_inflight_for, dec_inflight_for,
        inc_error_counter_for, observe_timer_for, emit_log]

/-- Witness for C1: a concrete failing call propagates `Err(MyError)`
unchanged and counts it under the label `MyError`. -/
theorem c1_witness :
    (runFallible "f" sampleAttrs RustError.debugRepr
        (Except.error ⟨"MyError", "my error"⟩ : Except RustError String)
        Metrics.empty).1 =
      Except.error ⟨"MyError", "my error"⟩ ∧
    ((runFallible "f" sampleAttrs RustError.debugRepr
        (Except.error ⟨"MyError", "my error"⟩ : Except RustError String)
        Metrics.empty).2).errors ("f", "default", "MyError") = 1 := by
  have h := c1_failure_propagated_unchanged "f" sampleAttrs RustError.debugRepr
    (Except.error ⟨"MyError", "my error"⟩ : Except RustError String) Metrics.empty
  refine ⟨h.1, ?_⟩
  have h2 := (h.2 ⟨"MyError", "my error"⟩ rfl).1
  simpa [sampleAttrs, Metrics.empty] using h2

/-- C2: for every invocation of an instrumented function, fallible or
infallible, that exits normally, the call-counter bump, the inflight
bump and the timer start all precede the body; the body runs once;
inflight is decremented exactly once, never drops below its pre-call
value and returns to it; and the latency histogram receives exactly one
observation. -/
theorem c2_invocation_invariants {ε α : Type} (name : String)
    (fa : FormattedAttributes) (dbg : ε → String) (body : Except ε α)
    (v : α) (m : Metrics) :
    InvocationInvariants (fallibleTrace name fa dbg body) name fa.ctx m
      ((runFallible name fa dbg body m).2) ∧
    InvocationInvariants (infallibleTrace name fa) name fa.ctx m
      ((runInfallible name fa v m).2) := by
  constructor
  · cases body with
    | ok r =>
      have htr : fallibleTrace name fa dbg (Except.ok r : Except ε α) =
          [Event.incCalled name fa.ctx, Event.incInflight name fa.ctx,
            Event.timerStart name fa.ctx, Event.bodyRun] ++
            (okExprEvents fa ++ [Event.decInflight name fa.ctx]) ++
            [Event.timerObserve name fa.ctx] := by
        simp [fallibleTrace]
      have hrun : ((runFallible name fa dbg (Except.ok r : Except ε α) m).2) =
          (fallibleTrace name fa dbg (Except.ok r : Except ε α)).foldl applyEvent m := rfl
      rw [hrun, htr]
      refine invariants_of_mid name fa.ctx _ m ?_ ?_ ?_ ?_ <;>
        cases hOk : fa.okLog <;>
          simp [okExprEvents, hOk, List.count_append, List.count_cons, beq_iff_eq]
    | error e =>
      have htr : fallibleTrace name fa dbg (Except.error e : Except ε α) =
          [Event.incCalled name fa.ctx, Event.incInflight name fa.ctx,
            Event.timerStart name fa.ctx, Event.bodyRun] ++
            (errExprEvents fa ++ [Event.incError name fa.ctx (dbg e),
              Event.decInflight name fa.ctx]) ++
            [Event.timerObserve name fa.ctx] := by
        simp [fallibleTrace]
      have hrun : ((runFallible name fa dbg (Except.error e : Except ε α) m).2) =
          (fallibleTrace name fa dbg (Except.error e : Except ε α)).foldl applyEvent m := rfl
      rw [hrun, htr]
      refine invariants_of_mid name fa.ctx _ m ?_ ?_ ?_ ?_ <;>
        cases hErr : fa.errLog <;>
          simp [errExprEvents, hErr, List.count_append, List.count_cons, beq_iff_eq]
  · have htr : infallibleTrace name fa =
        [Event.incCalled name fa.ctx, Event.incInflight name fa.ctx,
          Event.timerStart name fa.ctx, Event.bodyRun] ++
          (okExprEvents fa ++ [Event.decInflight name fa.ctx]) ++
          [Event.timerObserve name fa.ctx] := by
      simp [infallibleTrace]
    have hrun : ((runInfallible name fa v m).2) =
        (infallibleTrace name fa).foldl applyEvent m := rfl
    rw [hrun, htr]
    refine invariants_of_mid name fa.ctx _ m ?_ ?_ ?_ ?_ <;>
      cases hOk : fa.okLog <;>
        simp [okExprEvents, hOk, List.count_append, List.count_cons, beq_iff_eq]

/-- Witness for C2 at a concrete prefix of a concrete successful call:
the inflight gauge never drops below its pre-call value. -/
theorem c2_witness :
    Metrics.empty.inflight ("f", "default") ≤
      (([Event.incCalled "f" "default", Event.incInflight "f" "default"]).foldl
        applyEvent Metrics.empty).inflight ("f", "default") := by
  have h := (c2_invocation_invariants "f" sampleAttrs RustError.debugRepr
    (Except.ok "x" : Except RustError String) "y" Metrics.empty).1
  exact h.2.2.2.2.2.2.1
    [Event.incCalled "f" "default", Event.incInflight "f" "default"] (by decide)

/-- C5: a call of the instrumented fallible wrapper increments the call
counter by one; a successful call leaves every error-counter series
unchanged, while a failing call increments the error counter labelled
with the failure's textual form by one. -/
theorem c5_counter_semantics {ε α : Type} (name : String)
    (fa : FormattedAttributes) (dbg : ε → String) (body : Except ε α)
    (m : Metrics) :
    ((runFallible name fa dbg body m).2).called (name, fa.ctx) =
      m.called (name, fa.ctx) + 1 ∧
    (∀ v : α, body = Except.ok v →
      ∀ l, ((runFallible name fa dbg body m).2).errors l = m.errors l) ∧
    (∀ e : ε, body = Except.error e →
      ((runFallible name fa dbg body m).2).errors (name, fa.ctx, dbg e) =
        m.errors (name, fa.ctx, dbg e) + 1) := by
  refine ⟨?_, ?_, ?_⟩
  · cases body <;> cases hOk : fa.okLog <;> cases hErr : fa.errLog <;>
      simp [runFallible, fallibleTrace, okExprEvents, errExprEvents, hOk, hErr,
        applyEvent, inc_called_counter_for, inc_inflight_for, dec_inflight_for,
        inc_error_counter_for, observe_timer_for, emit_log]
  · rintro v rfl l
    cases hOk : fa.okLog <;>
      simp [runFallible, fallibleTrace, okExprEvents, hOk, applyEvent,
        inc_called_counter_for, inc_inflight_for, dec_inflight_for,
        inc_error_counter_for, observe_timer_for, emit_log]
  · rintro e rfl
    cases hErr : fa.errLog <;>
      simp [runFallible, fallibleTrace, errExprEvents, hErr, applyEvent,
        inc_called_counter_for, inc_inflight_for, dec_inflight_for,
        inc_error_counter_for, observe_timer_for, emit_log]

/-- Witness for C5: a concrete successful call bumps the call counter to
one and leaves a concrete error series at zero. -/
theorem c5_witness :
    ((runFallible "f" sampleAttrs RustError.debugRepr
        (Except.ok "hello" : Except RustError String) Metrics.empty).2).called
      ("f", "default") = 1 ∧
    ((runFallible "f" sampleAttrs RustError.debugRepr
        (Except.ok "hello" : Except RustError String) Metrics.empty).2).errors
      ("f", "default", "MyError") = 0 := by
  have h := c5_counter_semantics "f" sampleAttrs RustError.debugRepr
    (Except.ok "hello" : Except RustError String) Metrics.empty
  constructor
  · simpa [sampleAttrs, Metrics.empty] using h.1
  · have h2 := h.2.1 "hello" rfl ("f", "default", "MyError")
    simpa [sampleAttrs, Metrics.empty] using h2

/-- C9: the error-counter label of a failing instrumented call is the
failure's `Debug` text (`format!("\x7b:?\x7d", err)`): the trace's
error-counter call carries exactly the `Debug` text, that series is
incremented, and a differing `Display` text's series is untouched. -/
theorem c9_error_label_is_debug {α : Type} (name : String)
    (fa : FormattedAttributes) (e : RustError) (m : Metrics) :
    Event.incError name fa.ctx e.debugRepr ∈
      fallibleTrace name fa RustError.debugRepr (Except.error e : Except RustError α) ∧
    (∀ txt, Event.incError name fa.ctx txt ∈
      fallibleTrace name fa RustError.debugRepr (Except.error e : Except RustError α) →
      txt = e.debugRepr) ∧
    ((runFallible name fa RustError.debugRepr (Except.error e : Except RustError α) m).2).errors
        (name, fa.ctx, e.debugRepr) =
      m.errors (name, fa.ctx, e.debugRepr) + 1 ∧
    (e.displayRepr ≠ e.debugRepr →
      ((runFallible name fa RustError.debugRepr (Except.error e : Except RustError α) m).2).errors
          (name, fa.ctx, e.displayRepr) =
        m.errors (name, fa.ctx, e.displayRepr)) := by
  refine ⟨?_, ?_, ?_, ?_⟩
  · cases hErr : fa.errLog <;> simp [fallibleTrace, errExprEvents, hErr]
  · intro txt htxt
    cases hErr : fa.errLog <;>
      simp [fallibleTrace, errExprEvents, hErr] at htxt <;> exact htxt
  · cases hErr : fa.errLog <;>
      simp [runFallible, fallibleTrace, errExprEvents, hErr, applyEvent,
        inc_called_counter_for, inc_inflight_for, dec_inflight_for,
        inc_error_counter_for, observe_timer_for, emit_log]
  · intro hne
    cases hErr : fa.errLog <;>
      simp [runFallible, fallibleTrace, errExprEvents, hErr, applyEvent,
        inc_called_counter_for, inc_inflight_for, dec_inflight_for,
        inc_error_counter_for, observe_timer_for, emit_log, hne]

/-- Witness for C9: a unit-struct-like error with `Debug` text `MyError`
and `Display` text `my error` is counted under `MyError` only. -/
theorem c9_witness :
    ((runFallible "f" sampleAttrs RustError.debugRepr
        (Except.error ⟨"MyError", "my error"⟩ : Except RustError String)
        Metrics.empty).2).errors ("f", "default", "MyError") = 1 ∧
    ((runFallible "f" sampleAttrs RustError.debugRepr
        (Except.error ⟨"MyError", "my error"⟩ : Except RustError String)
        Metrics.empty).2).errors ("f", "default", "my error") = 0 := by
  have h := c9_error_label_is_debug (α := String) "f" sampleAttrs
    ⟨"MyError", "my error"⟩ Metrics.empty
  constructor
  · simpa [sampleAttrs, Metrics.empty] using h.2.2.1
  · have h2 := h.2.2.2 (by decide)
    simpa [sampleAttrs, Metrics.empty] using h2

end Instrumented
